import Mathlib

/-
  Verification development for the niflheim-x TypeScript conversation
  orchestration core.

  Shallow embedding of:
    - packages/typescript/src/types.ts      (Message, ToolCall, ToolResult, ...)
    - packages/typescript/src/tools.ts      (Tool, ToolRegistry, executeTool)
    - packages/typescript/src/memory.ts     (DictMemory.addMessage)
    - src/llm/base.ts                       (BaseLLM.validateMessages, OpenAILLM.chat/stream)
    - src/simple-agent.ts                   (SimpleDictMemory, Agent.getMessages, Agent.chat, Agent.stream)

  Modelling conventions:
    - JavaScript runtime strings model roles ("system" / "user" / "assistant" /
      "tool"), so the truthiness check !message.role is role = "".
    - Asynchronous handler execution is modelled by a settle time (in
      milliseconds) together with an outcome (resolved value or thrown error
      message); the Promise.race in executeTool compares the settle time with
      the timer deadline (tool.timeout * 1000 ms).  A tie is resolved in favour
      of the handler; every claim below only depends on the strict cases.
    - JSON payloads that no claim inspects structurally (tool arguments,
      parameter schemas) are carried as opaque strings.  The JSON.parse
      builtin applied to a tool call's arguments string is modelled by an
      ArgsParse function (mirroring SseParse for the stream parser): .ok is
      the parsed structured map, carried opaquely, .error the SyntaxError
      thrown on malformed input - a real error path of Agent.chat that fires
      before any tool executes, modelled as such.
    - Observable effects of Agent.chat / Agent.stream (memory appends, provider
      requests, ToolRegistry.executeTool invocations) are recorded in an
      explicit trace, in program order.
    - Date objects (Message.timestamp) and the metadata record are omitted:
      no claim mentions them and no control flow inspects them.
-/

/-- JavaScript runtime values, as far as tool handlers need them: an opaque
success payload for ToolResult.result.  (types.ts: result?: any). -/
inductive JsValue where
  | undef
  | null
  | boolean (b : Bool)
  | number (n : Int)
  | string (s : String)
deriving DecidableEq

/-- JSON.stringify on an optional handler result, used when a ToolResult is
turned into a tool-role message (simple-agent.ts line 213).  Only the fact
that it is some string matters to the claims. -/
def jsonStringify : Option JsValue → String
  | some .undef => "undefined"
  | some .null => "null"
  | some (.boolean true) => "true"
  | some (.boolean false) => "false"
  | some (.number n) => toString n
  | some (.string s) => "\"" ++ s ++ "\""
  | none => "undefined"

/-- types.ts ToolCall: the normalized tool invocation request.
arguments is the structured key/value map, carried opaquely. -/
structure ToolCall where
  name : String
  arguments : String
  callId : String
deriving DecidableEq

/-- types.ts Message.  role is the runtime string of the MessageRole enum.
timestamp / metadata / agentName are omitted (never read by the core). -/
structure Message where
  role : String
  content : String
  toolCalls : Option (List ToolCall) := none
  toolCallId : Option String := none
deriving DecidableEq

/-- llm/base.ts LLMResponse.toolCalls element: the function sub-object. -/
structure LLMFunctionCall where
  name : String
  arguments : String
deriving DecidableEq

/-- llm/base.ts LLMResponse.toolCalls element: (id, type, function). -/
structure LLMToolCall where
  id : String
  type : String
  function : LLMFunctionCall
deriving DecidableEq

/-- llm/base.ts LLMResponse.usage (all fields optional in the TS type). -/
structure LLMUsage where
  promptTokens : Option Nat := none
  completionTokens : Option Nat := none
  totalTokens : Option Nat := none
deriving DecidableEq

/-- llm/base.ts LLMResponse. -/
structure LLMResponse where
  content : String
  usage : Option LLMUsage := none
  toolCalls : Option (List LLMToolCall) := none
deriving DecidableEq

/-- llm/base.ts StreamChunk. -/
structure StreamChunk where
  content : Option String := none
  delta : Option String := none
  finished : Option Bool := none
  toolCalls : Option (List LLMToolCall) := none
deriving DecidableEq

/-- types.ts ToolResult: callId, optional result, optional error,
executionTime in milliseconds. -/
structure ToolResult where
  callId : String
  result : Option JsValue := none
  error : Option String := none
  executionTime : Nat := 0
deriving DecidableEq

/-- The behaviour of one asynchronous tool-handler invocation: when it
settles (milliseconds after invocation) and whether it resolves with a value
or rejects/throws with an error message. -/
structure HandlerBehavior where
  time : Nat
  outcome : Except String JsValue

/-- tools.ts Tool: name, description, handler, parameter schema (opaque
JSON), timeout in seconds (createTool default 30.0; executeTool races at
timeout * 1000 milliseconds). -/
structure Tool where
  name : String
  description : String
  function : String → HandlerBehavior
  parameters : String
  timeout : Nat

/-- tools.ts ToolRegistry: a name-keyed map of tools, modelled as the list of
entries in insertion order (Map preserves insertion order). -/
structure ToolRegistry where
  tools : List Tool

/-- ToolRegistry.getTool: Map.get by name. -/
def getTool (reg : ToolRegistry) (name : String) : Option Tool :=
  reg.tools.find? (fun t => t.name == name)

/-- ToolRegistry.registerTool: Map.set — replace an existing entry with the
same name in place, otherwise append (last registration wins). -/
def registerTool (reg : ToolRegistry) (t : Tool) : ToolRegistry :=
  if reg.tools.any (fun x => x.name == t.name) then
    ⟨reg.tools.map (fun x => if x.name == t.name then t else x)⟩
  else
    ⟨reg.tools ++ [t]⟩

/-- tools.ts getOpenAITools element: type "function" plus the tool's
name / description / parameters. -/
structure OpenAIToolDecl where
  type : String
  name : String
  description : String
  parameters : String
deriving DecidableEq

/-- ToolRegistry.getOpenAITools (tools.ts lines 30–39). -/
def getOpenAITools (reg : ToolRegistry) : List OpenAIToolDecl :=
  reg.tools.map (fun t =>
    { type := "function", name := t.name,
      description := t.description, parameters := t.parameters })

/-- ToolRegistry.getAnthropicTools element (tools.ts lines 41–47). -/
structure AnthropicToolDecl where
  name : String
  description : String
  input_schema : String
deriving DecidableEq

/-- ToolRegistry.getAnthropicTools. -/
def getAnthropicTools (reg : ToolRegistry) : List AnthropicToolDecl :=
  reg.tools.map (fun t =>
    { name := t.name, description := t.description, input_schema := t.parameters })

/-- ToolRegistry.executeTool (tools.ts lines 49–83).
Lookup miss returns an error result without invoking any handler.  Otherwise
the handler is raced against a timer of tool.timeout * 1000 ms: if the
handler settles no later than the timer fires it wins (resolution becomes
result, rejection/throw becomes error); if it settles strictly later, the
timer's rejection wins and is caught, yielding the timeout error.  Every
path returns a ToolResult — the function never throws. -/
def executeTool (reg : ToolRegistry) (toolCall : ToolCall) : ToolResult :=
  match getTool reg toolCall.name with
  | none =>
      { callId := toolCall.callId,
        error := some ("Tool \x27" ++ toolCall.name ++ "\x27 not found"),
        executionTime := 0 }
  | some tool =>
      let behavior := tool.function toolCall.arguments
      let timerMs := tool.timeout * 1000
      if behavior.time ≤ timerMs then
        match behavior.outcome with
        | .ok v =>
            { callId := toolCall.callId, result := some v,
              executionTime := behavior.time }
        | .error msg =>
            { callId := toolCall.callId, error := some msg,
              executionTime := behavior.time }
      else
        { callId := toolCall.callId, error := some "Tool execution timeout",
          executionTime := timerMs }

/-- A concrete tool whose handler resolves with a value 40 000 ms after
invocation, against a 30-second timeout. -/
def slowTool : Tool :=
  { name := "slow_echo", description := "resolves late",
    function := fun _ => { time := 40000, outcome := .ok (.string "late value") },
    parameters := "schema", timeout := 30 }

/-- Registry holding only slowTool. -/
def slowRegistry : ToolRegistry := ⟨[slowTool]⟩

/-- Call to slowTool. -/
def slowCall : ToolCall :=
  { name := "slow_echo", arguments := "args", callId := "call_slow" }

/-- JavaScript Array.prototype.slice(-n) on a message array.  Note the JS
pitfall that slice(-0) is slice(0), i.e. the whole array: a capacity of 0
never trims.  (memory.ts line 33, simple-agent.ts line 38). -/
def jsSliceLast (n : Nat) (xs : List Message) : List Message :=
  if n = 0 then xs else xs.drop (xs.length - n)

/-- DictMemory.addMessage (memory.ts lines 23–35) and
SimpleDictMemory.addMessage (simple-agent.ts lines 33–40), applied to the
stored message list of one session: push the message, then trim to the last
maxMessages entries whenever the length exceeds maxMessages. -/
def addMessageMem (maxMessages : Nat) (messages : List Message) (m : Message) :
    List Message :=
  let messages := messages ++ [m]
  if messages.length > maxMessages then jsSliceLast maxMessages messages
  else messages

/-- The last n entries of a list (specification-side helper for C10). -/
def lastN (n : Nat) (xs : List Message) : List Message :=
  xs.drop (xs.length - n)

/-- Sample messages used by concrete witnesses below. -/
def msgA : Message := { role := "user", content := "first" }

/-- Second sample message. -/
def msgB : Message := { role := "assistant", content := "second" }

/-- Third sample message. -/
def msgC : Message := { role := "user", content := "third" }

/-- types.ts AgentResponse (metadata record omitted; finishReason is the
literal "stop" the source always uses). -/
structure AgentResponse where
  content : String
  toolCalls : List ToolCall
  usage : Option (Nat × Nat × Nat) := none
  finishReason : String
deriving DecidableEq

/-- Observable effects of one Agent exchange, in program order:
a memory append, a provider request (llm.chat), or one
ToolRegistry.executeTool invocation. -/
inductive Event where
  | memAppend (m : Message)
  | llmRequest (messages : List Message) (tools : Option (List OpenAIToolDecl))
  | toolExec (tc : ToolCall)
deriving DecidableEq

/-- The provider adapter seen from Agent.chat: messages and the optional tool
declarations go in, an LLMResponse or a thrown error (modelled as a String)
comes back. -/
def LLMOracle : Type :=
  List Message → Option (List OpenAIToolDecl) → Except String LLMResponse

/-- Agent-relevant state: the SimpleDictMemory message list with its capacity
(maxMessages, constructor default 1000), the Agent's maxMemoryMessages
history bound (default 50), the configured system prompt, and the tool
registry. -/
structure AgentState where
  memory : List Message
  memCap : Nat
  maxMemoryMessages : Nat
  systemPrompt : String
  registry : ToolRegistry

/-- The user Message Agent.chat wraps the incoming text in
(simple-agent.ts lines 164–168). -/
def mkUserMessage (u : String) : Message :=
  { role := "user", content := u }

/-- Agent.addMessage: delegate to SimpleDictMemory.addMessage. -/
def agentAppend (s : AgentState) (m : Message) : AgentState :=
  { s with memory := addMessageMem s.memCap s.memory m }

/-- Sequential Agent.addMessage calls (the tool-result append loop). -/
def agentAppendAll (s : AgentState) (ms : List Message) : AgentState :=
  ms.foldl agentAppend s

/-- JavaScript Array.prototype.slice(start) for a possibly negative start
index (used by Agent.getMessages with -maxMemoryMessages + systemCount). -/
def jsSliceFrom (xs : List Message) (k : Int) : List Message :=
  if 0 ≤ k then xs.drop k.toNat else xs.drop (xs.length - (-k).toNat)

/-- Agent.getMessages (simple-agent.ts lines 111–121): return the memory
contents; when they exceed maxMemoryMessages, keep every system message plus
the trailing slice(-maxMemoryMessages + systemCount) of the non-system
messages. -/
def getMessages (s : AgentState) : List Message :=
  let messages := s.memory
  if messages.length > s.maxMemoryMessages then
    let systemMessages := messages.filter (fun m => m.role == "system")
    let otherMessages := messages.filter (fun m => m.role != "system")
    let recentMessages :=
      jsSliceFrom otherMessages
        ((systemMessages.length : Int) - (s.maxMemoryMessages : Int))
    systemMessages ++ recentMessages
  else messages

/-- Agent.chat / Agent.stream outbound assembly (simple-agent.ts lines
171–181): if the history holds no system message, synthesize one from the
configured prompt and prepend it. -/
def assembleOutbound (systemPrompt : String) (messages : List Message) :
    List Message :=
  if messages.any (fun m => m.role == "system") then messages
  else { role := "system", content := systemPrompt } :: messages

/-- State after Agent.chat has appended the wrapped user message. -/
def afterUser (s : AgentState) (u : String) : AgentState :=
  agentAppend s (mkUserMessage u)

/-- The message list Agent.chat passes to the first llm.chat call. -/
def chatOutbound (s : AgentState) (u : String) : List Message :=
  assembleOutbound s.systemPrompt (getMessages (afterUser s u))

/-- tools.length > 0 ? tools : undefined (simple-agent.ts line 189). -/
def mkToolsArg (tools : List OpenAIToolDecl) : Option (List OpenAIToolDecl) :=
  if tools.length > 0 then some tools else none

/-- The tools argument of the first llm.chat call. -/
def chatToolsArg (s : AgentState) : Option (List OpenAIToolDecl) :=
  mkToolsArg (getOpenAITools s.registry)

/-- The two events every Agent.chat run opens with: the user-message append
and the first provider request. -/
def chatLeadEvents (s : AgentState) (u : String) : List Event :=
  [Event.memAppend (mkUserMessage u),
   Event.llmRequest (chatOutbound s u) (chatToolsArg s)]

/-- The JSON.parse builtin applied to one function.arguments string: .ok is
the parsed structured key/value map (carried opaquely), .error the
SyntaxError thrown on malformed input.  Claim-level theorems quantify over
it, exactly as SseParse abstracts the stream-side JSON.parse below. -/
def ArgsParse : Type := String → Except String String

/-- Agent.convertToolCalls (simple-agent.ts lines 126–139): map the
provider-shaped tool calls to the normalized ToolCall form, parsing each
arguments string with JSON.parse.  The map runs left to right and the first
SyntaxError propagates out — before any tool executes. -/
def convertToolCalls (parse : ArgsParse) :
    List LLMToolCall → Except String (List ToolCall)
  | [] => .ok []
  | tc :: rest =>
      match parse tc.function.arguments with
      | .error e => .error e
      | .ok args =>
          match convertToolCalls parse rest with
          | .error e => .error e
          | .ok converted =>
              .ok ({ name := tc.function.name, arguments := args,
                     callId := tc.id } :: converted)

/-- Agent.executeToolCalls (simple-agent.ts lines 144–155): invoke
ToolRegistry.executeTool once per call, sequentially, in list order,
collecting the results; the second component records one toolExec event per
invocation, in invocation order. -/
def executeToolCalls (reg : ToolRegistry) :
    List ToolCall → List ToolResult × List Event
  | [] => ([], [])
  | tc :: rest =>
      let r := executeTool reg tc
      let tail := executeToolCalls reg rest
      (r :: tail.1, Event.toolExec tc :: tail.2)

/-- The assistant message carrying the first response's tool calls
(simple-agent.ts lines 202–207). -/
def assistantToolMessage (content : String) (converted : List ToolCall) :
    Message :=
  { role := "assistant", content := content, toolCalls := some converted }

/-- The tool-role message built from one ToolResult (simple-agent.ts lines
210–216): content is result.error || JSON.stringify(result.result), with the
JavaScript || taking the error only when it is a non-empty string. -/
def toolResultMessage (r : ToolResult) : Message :=
  { role := "tool",
    content :=
      match r.error with
      | some e => if e = "" then jsonStringify r.result else e
      | none => jsonStringify r.result,
    toolCallId := some r.callId }

/-- The tool-role messages appended for one batch of converted tool calls. -/
def toolMessages (reg : ToolRegistry) (converted : List ToolCall) :
    List Message :=
  (executeToolCalls reg converted).1.map toolResultMessage

/-- State after the executed tool round of Agent.chat: user message, then
the assistant message carrying the converted calls, then one tool-role
message per result, all appended to memory (simple-agent.ts lines
196–217). -/
def afterToolRound (s : AgentState) (u : String) (content1 : String)
    (converted : List ToolCall) : AgentState :=
  agentAppendAll
    (agentAppend (afterUser s u) (assistantToolMessage content1 converted))
    (toolMessages s.registry converted)

/-- The updated history passed to the follow-up llm.chat call
(simple-agent.ts lines 219–221; note the follow-up is issued without the
tools argument). -/
def followupMessages (s : AgentState) (u : String) (content1 : String)
    (converted : List ToolCall) : List Message :=
  getMessages (afterToolRound s u content1 converted)

/-- usage normalization in the AgentResponse (simple-agent.ts lines
246–250): each field defaults to 0. -/
def normalizeUsage (u : LLMUsage) : Nat × Nat × Nat :=
  (u.promptTokens.getD 0, u.completionTokens.getD 0, u.totalTokens.getD 0)

/-- followupResponse.toolCalls handling (simple-agent.ts lines 224–227): a
present array is converted — JSON.parse can throw here as well — and
aggregated; an absent one contributes nothing. -/
def optConvert (parse : ArgsParse) :
    Option (List LLMToolCall) → Except String (List ToolCall)
  | some l => convertToolCalls parse l
  | none => .ok []

/-- Result of one Agent.chat run: the returned AgentResponse or the
re-thrown error, the final agent state, and the trace of observable
effects. -/
structure ChatOutcome where
  result : Except String AgentResponse
  state : AgentState
  trace : List Event

/-- Tail of Agent.chat (simple-agent.ts lines 230–255): append the final
assistant message and build the AgentResponse. -/
def chatFinish (st : AgentState) (evs : List Event) (finalContent : String)
    (allToolCalls : List ToolCall) (response : LLMResponse) : ChatOutcome :=
  let assistantMsg : Message := { role := "assistant", content := finalContent }
  { result := .ok
      { content := finalContent, toolCalls := allToolCalls,
        usage := response.usage.map normalizeUsage, finishReason := "stop" },
    state := agentAppend st assistantMsg,
    trace := evs ++ [Event.memAppend assistantMsg] }

/-- Conversion outcome of the follow-up response's own tool calls
(simple-agent.ts lines 224–227): a SyntaxError from this JSON.parse is
re-thrown by the enclosing try/catch before the final assistant append, with
memory left as the tool round wrote it; a successful conversion joins the
aggregate. -/
def chatFollowupOk (s : AgentState) (u : String) (r1 : LLMResponse)
    (converted : List ToolCall) (evs : List Event) (followup : LLMResponse) :
    Except String (List ToolCall) → ChatOutcome
  | .error e =>
      { result := .error e, state := afterToolRound s u r1.content converted,
        trace := evs }
  | .ok extra =>
      chatFinish (afterToolRound s u r1.content converted) evs
        followup.content (converted ++ extra) r1

/-- Follow-up outcome handling (simple-agent.ts lines 221–227 and the
enclosing try/catch): an error thrown by the follow-up call is re-thrown
unmodified with memory left as the tool round wrote it; on success the
follow-up's own tool calls are converted next. -/
def chatFollowup (s : AgentState) (u : String) (parse : ArgsParse)
    (r1 : LLMResponse) (converted : List ToolCall) (evs : List Event) :
    Except String LLMResponse → ChatOutcome
  | .error e =>
      { result := .error e, state := afterToolRound s u r1.content converted,
        trace := evs }
  | .ok followup =>
      chatFollowupOk s u r1 converted evs followup
        (optConvert parse followup.toolCalls)

/-- The executed tool round of Agent.chat (simple-agent.ts lines 198–227),
entered once conversion has succeeded: execute the converted calls
sequentially, append the assistant message carrying the calls and one
tool-role message per result, then issue the follow-up request on the
updated history. -/
def chatToolRound (s : AgentState) (llm : LLMOracle) (u : String)
    (parse : ArgsParse) (r1 : LLMResponse) (converted : List ToolCall) :
    ChatOutcome :=
  let execEvs := (executeToolCalls s.registry converted).2
  let toolMsgs := toolMessages s.registry converted
  let evs := chatLeadEvents s u ++ execEvs ++
    (Event.memAppend (assistantToolMessage r1.content converted) ::
      toolMsgs.map Event.memAppend) ++
    [Event.llmRequest (followupMessages s u r1.content converted) none]
  chatFollowup s u parse r1 converted evs
    (llm (followupMessages s u r1.content converted) none)

/-- Dispatch on the conversion outcome of the first response's tool calls
(simple-agent.ts line 197): a SyntaxError on a malformed arguments string
propagates out of the try/catch with only the user message appended — no
tool executes and no further append or request happens. -/
def chatToolConverted (s : AgentState) (llm : LLMOracle) (u : String)
    (parse : ArgsParse) (r1 : LLMResponse) :
    Except String (List ToolCall) → ChatOutcome
  | .error e =>
      { result := .error e, state := afterUser s u, trace := chatLeadEvents s u }
  | .ok converted => chatToolRound s llm u parse r1 converted

/-- The tool branch of Agent.chat (simple-agent.ts lines 196–227): convert
the calls — JSON.parse throwing on malformed arguments — then run the tool
round. -/
def chatToolPhase (s : AgentState) (llm : LLMOracle) (u : String)
    (parse : ArgsParse) (r1 : LLMResponse) (ltc : List LLMToolCall) :
    ChatOutcome :=
  chatToolConverted s llm u parse r1 (convertToolCalls parse ltc)

/-- Dispatch on response.toolCalls && response.toolCalls.length > 0
(simple-agent.ts line 196): only a present, non-empty array enters the tool
round. -/
def chatOnToolCalls (s : AgentState) (llm : LLMOracle) (u : String)
    (parse : ArgsParse) (response : LLMResponse) :
    Option (List LLMToolCall) → ChatOutcome
  | some (tc0 :: tcs) => chatToolPhase s llm u parse response (tc0 :: tcs)
  | _ => chatFinish (afterUser s u) (chatLeadEvents s u) response.content []
          response

/-- Dispatch on the first llm.chat outcome (simple-agent.ts lines 186–260):
an error is re-thrown unmodified, with the user message already in memory. -/
def chatOnResponse (s : AgentState) (llm : LLMOracle) (u : String)
    (parse : ArgsParse) : Except String LLMResponse → ChatOutcome
  | .error e => { result := .error e, state := afterUser s u,
                  trace := chatLeadEvents s u }
  | .ok response => chatOnToolCalls s llm u parse response response.toolCalls

/-- Agent.chat (simple-agent.ts lines 160–261): append the user message,
assemble the outbound history (re-injecting the system prompt if absent),
export the registry's tools, call the provider, resolve tool calls with one
follow-up round, append the final assistant message.  The parse argument is
the JSON.parse builtin used on tool-call argument strings. -/
def chat (s : AgentState) (llm : LLMOracle) (parse : ArgsParse) (u : String) :
    ChatOutcome :=
  chatOnResponse s llm u parse (llm (chatOutbound s u) (chatToolsArg s))


/-- Recognizer for executeTool invocations in a trace. -/
def Event.isToolExec : Event → Bool
  | .toolExec _ => true
  | _ => false

/-- Recognizer for provider requests in a trace. -/
def Event.isRequest : Event → Bool
  | .llmRequest _ _ => true
  | _ => false

/-- Recognizer for assistant-role memory appends in a trace. -/
def Event.isAssistantAppend : Event → Bool
  | .memAppend m => m.role == "assistant"
  | _ => false

/-- BaseLLM.validateMessages (llm/base.ts lines 62–72): reject an empty
list, and reject any message whose role or content is a falsy (empty)
string.  The source throws at the first offending message; the observable
outcome (which error, whether the network is reached) is the same as this
two-test form. -/
def validateMessages (messages : List Message) : Except String Unit :=
  if messages.length = 0 then .error "Messages cannot be empty"
  else if messages.any (fun m => m.role == "" || m.content == "") then
    .error "Each message must have role and content"
  else .ok ()

/-- The request body an OpenAILLM call would POST (model name, temperature
and auth headers omitted — constants never branched on). -/
structure OpenAIRequest where
  messages : List Message
  tools : Option (List OpenAIToolDecl)
  streamFlag : Bool

/-- The network seen by OpenAILLM.chat: a request goes out, a parsed
response or a thrown error comes back. -/
def Network : Type := OpenAIRequest → Except String LLMResponse

/-- The network seen by OpenAILLM.stream: a request goes out and the
response body arrives as a sequence of decoded reads. -/
def StreamNetwork : Type := OpenAIRequest → Except String (List String)

/-- OpenAILLM.chat (llm/base.ts lines 96–128): validate first, and only on
success perform the network request.  The Bool records whether the network
was reached. -/
def openaiChat (net : Network) (messages : List Message)
    (tools : Option (List OpenAIToolDecl)) :
    Except String LLMResponse × Bool :=
  match validateMessages messages with
  | .error e => (.error e, false)
  | .ok _ => (net { messages := messages, tools := tools, streamFlag := false },
              true)

/-- The delta payload of one parsed OpenAI SSE data line:
data.choices[0].delta.content, data.choices[0].delta.tool_calls and
data.choices[0].finish_reason, each possibly absent. -/
structure OpenAIDelta where
  content : Option String := none
  tool_calls : Option (List LLMToolCall) := none
  finish_reason : Option String := none

/-- JSON.parse composed with the data.choices[0] access of
OpenAILLM.stream: none covers both malformed JSON (silently skipped) and a
payload without choices. -/
def SseParse : Type := String → Option OpenAIDelta

/-- The chunks OpenAILLM.stream yields for one parsed payload (llm/base.ts
lines 191–204): a truthy (non-empty) content delta, then a present
tool_calls array (even an empty one is truthy), then a truthy finish_reason
mapped to finished = true. -/
def emitsOfDelta (d : OpenAIDelta) : List StreamChunk :=
  (match d.content with
   | some c => if c = "" then [] else [{ content := some c }]
   | none => []) ++
  (match d.tool_calls with
   | some l => [{ toolCalls := some l }]
   | none => []) ++
  (match d.finish_reason with
   | some r => if r = "" then [] else [{ finished := some true }]
   | none => [])

/-- Split a character list at every occurrence of the separator character —
the semantics of JavaScript String.prototype.split with a one-character
separator (structural recursion so that concrete runs reduce in the
kernel). -/
def splitOnChar (c : Char) : List Char → List (List Char)
  | [] => [[]]
  | a :: rest =>
      match splitOnChar c rest with
      | [] => [[]]
      | g :: gs => if a = c then [] :: g :: gs else (a :: g) :: gs

/-- JavaScript String.prototype.split applied with the newline separator. -/
def jsSplitLines (s : String) : List String :=
  (splitOnChar (Char.ofNat 10) s.data).map String.mk

/-- JavaScript String.prototype.trim: strip whitespace from both ends. -/
def jsTrim (s : String) : String :=
  ⟨((s.data.dropWhile Char.isWhitespace).reverse.dropWhile
      Char.isWhitespace).reverse⟩

/-- JavaScript String.prototype.startsWith. -/
def jsStartsWith (p s : String) : Bool :=
  p.data.isPrefixOf s.data

/-- JavaScript String.prototype.slice(n) for a non-negative character
index. -/
def jsDrop (n : Nat) (s : String) : String :=
  ⟨s.data.drop n⟩

/-- Per-line handling of OpenAILLM.stream (llm/base.ts lines 185–209): an
empty line or the literal sentinel "data: [DONE]" yields nothing (the
source's continue — it does not stop the read loop); a line with the
"data: " event prefix has its payload parsed, a parse failure is silently
skipped, and a parsed payload yields its chunks. -/
def processLine (parse : SseParse) (line : String) : List StreamChunk :=
  let trimmed := jsTrim line
  if trimmed = "" || trimmed = "data: [DONE]" then []
  else if jsStartsWith "data: " trimmed then
    match parse (jsDrop 6 trimmed) with
    | none => []
    | some d => emitsOfDelta d
  else []

/-- The buffered line-framing read loop of OpenAILLM.stream (llm/base.ts
lines 176–210): append each read to the carry-over buffer, split on
newline, process every complete line and retain the trailing partial line;
when the reads are exhausted the loop breaks (a leftover partial buffer is
dropped). -/
def streamLoop (parse : SseParse) : List String → String → List StreamChunk
  | [], _ => []
  | r :: rest, buffer =>
      let buf := buffer ++ r
      let lines := jsSplitLines buf
      ((lines.dropLast.map (processLine parse)).flatten) ++
        streamLoop parse rest ((lines.getLast?).getD "")

/-- OpenAILLM.stream (llm/base.ts lines 130–214): validate first; only on
success issue the streaming request and run the read loop.  The Bool
records whether the network was reached. -/
def openaiStream (parse : SseParse) (net : StreamNetwork)
    (messages : List Message) (tools : Option (List OpenAIToolDecl)) :
    Except String (List StreamChunk) × Bool :=
  match validateMessages messages with
  | .error e => (.error e, false)
  | .ok _ =>
      match net { messages := messages, tools := tools, streamFlag := true } with
      | .error e => (.error e, true)
      | .ok reads => (.ok (streamLoop parse reads ""), true)

/-- The chunk-consumption loop of Agent.stream (simple-agent.ts lines
293–307): accumulate each truthy content delta, forward the chunk, and
break once a chunk with finished = true has been forwarded.  Returns the
accumulated text and the forwarded chunks. -/
def streamStep : List StreamChunk → String → String × List StreamChunk
  | [], acc => (acc, [])
  | c :: rest, acc =>
      let acc2 := match c.content with
        | some t => if t = "" then acc else acc ++ t
        | none => acc
      if c.finished = some true then (acc2, [c])
      else
        let tail := streamStep rest acc2
        (tail.1, c :: tail.2)

/-- Result of one Agent.stream run: the chunks forwarded to the caller, the
final agent state, and the trace of memory appends. -/
structure StreamOutcome where
  forwarded : List StreamChunk
  state : AgentState
  trace : List Event

/-- Agent.stream (simple-agent.ts lines 266–324): append the user message,
consume the provider's chunk sequence (the chunks argument), and afterwards
commit the accumulated text as a single assistant message — but only when
the accumulated text is non-empty (the source's if (fullContent) guard). -/
def agentStream (s : AgentState) (u : String) (chunks : List StreamChunk) :
    StreamOutcome :=
  let userMsg := mkUserMessage u
  let s1 := afterUser s u
  let fullContent := (streamStep chunks "").1
  let forwarded := (streamStep chunks "").2
  if fullContent = "" then
    { forwarded := forwarded, state := s1, trace := [Event.memAppend userMsg] }
  else
    let aMsg : Message := { role := "assistant", content := fullContent }
    { forwarded := forwarded, state := agentAppend s1 aMsg,
      trace := [Event.memAppend userMsg, Event.memAppend aMsg] }

/-- Specification-side description of the chunks Agent.stream forwards: the
arrival-order prefix up to and including the first finished chunk. -/
def forwardedSpec : List StreamChunk → List StreamChunk
  | [] => []
  | c :: rest =>
      if c.finished = some true then [c] else c :: forwardedSpec rest

/-- The content delta a chunk carries (empty when absent). -/
def chunkText (c : StreamChunk) : String :=
  match c.content with
  | some t => t
  | none => ""

/-- Concatenation of the content deltas of a chunk sequence. -/
def deltasConcat : List StreamChunk → String
  | [] => ""
  | c :: rest => chunkText c ++ deltasConcat rest

/-- Claim C1's property, for one chat invocation: the first provider
request carries the assembled outbound list, which holds exactly one
system-role message, positioned first. -/
def OutboundSystemOnce (s : AgentState) (llm : LLMOracle) (parse : ArgsParse)
    (u : String) : Prop :=
  ∃ rest, (chat s llm parse u).trace =
      Event.memAppend (mkUserMessage u) ::
        Event.llmRequest (chatOutbound s u) (chatToolsArg s) :: rest ∧
    ((chatOutbound s u).filter (fun m => m.role == "system")).length = 1 ∧
    (chatOutbound s u).head? = some { role := "system", content := s.systemPrompt }

/-- Amended claim C2's property, over the successfully converted calls:
the trace shows one executeTool invocation per converted call, in array
order, followed by the assistant message carrying the calls, exactly one
tool-role append per call, and only then the follow-up request; and no
executeTool invocation occurs anywhere else. -/
def ToolRoundTraceSpec (s : AgentState) (llm : LLMOracle) (parse : ArgsParse)
    (u : String) (r1 : LLMResponse) (converted : List ToolCall) : Prop :=
  (∃ rest,
    (chat s llm parse u).trace =
      chatLeadEvents s u ++
      converted.map Event.toolExec ++
      (Event.memAppend (assistantToolMessage r1.content converted) ::
        (toolMessages s.registry converted).map Event.memAppend) ++
      (Event.llmRequest (followupMessages s u r1.content converted) none ::
        rest)) ∧
  (chat s llm parse u).trace.filter Event.isToolExec =
    converted.map Event.toolExec ∧
  (toolMessages s.registry converted).length = converted.length ∧
  ∀ m ∈ toolMessages s.registry converted, m.role = "tool"

/-- Amended claim C3's property: exactly two provider requests are
issued, the returned aggregate contains the first round's converted calls
followed by the follow-up's converted calls, and executeTool runs only for
the first round's calls. -/
def SingleFollowupSpec (s : AgentState) (llm : LLMOracle) (parse : ArgsParse)
    (u : String) (r2 : LLMResponse) (converted extra : List ToolCall) : Prop :=
  (∃ resp, (chat s llm parse u).result = .ok resp ∧
      resp.toolCalls = converted ++ extra ∧
      resp.content = r2.content) ∧
  ((chat s llm parse u).trace.filter Event.isRequest).length = 2 ∧
  (chat s llm parse u).trace.filter Event.isToolExec =
    converted.map Event.toolExec

/-- Claim C9's property: the adapter's thrown error reaches the caller
unmodified as the chat result, and the final memory is the initial memory
extended by exactly the messages appended before the failure, led by the
user's message (plain concatenation whenever the capacity is not exceeded -
no rollback ever happens). -/
def ErrorKeepsMemorySpec (s : AgentState) (llm : LLMOracle) (parse : ArgsParse)
    (u : String) (e : String) : Prop :=
  (chat s llm parse u).result = .error e ∧
  ∃ appended,
    appended.head? = some (mkUserMessage u) ∧
    (chat s llm parse u).state.memory =
      appended.foldl (addMessageMem s.memCap) s.memory ∧
    (s.memory.length + appended.length ≤ s.memCap →
      (chat s llm parse u).state.memory = s.memory ++ appended)

/-- Amended claim C8's property: the chunks forwarded are the arrival-order
prefix through the first finished chunk, and the trace appends the user
message and then a single assistant message carrying the concatenated
deltas — unless that concatenation is empty, in which case nothing further
is appended. -/
def StreamCommitSpec (s : AgentState) (u : String)
    (chunks : List StreamChunk) : Prop :=
  (agentStream s u chunks).forwarded = forwardedSpec chunks ∧
  (agentStream s u chunks).trace =
    Event.memAppend (mkUserMessage u) ::
      (if deltasConcat (forwardedSpec chunks) = "" then []
       else [Event.memAppend
         { role := "assistant", content := deltasConcat (forwardedSpec chunks) }])

/-- The empty tool registry. -/
def emptyRegistry : ToolRegistry := ⟨[]⟩

/-- A fresh agent with the source's defaults: empty memory, memory capacity
1000, history bound 50, the default system prompt, no tools. -/
def sampleAgent : AgentState :=
  { memory := [], memCap := 1000, maxMemoryMessages := 50,
    systemPrompt := "You are a helpful AI assistant.", registry := emptyRegistry }

/-- A provider oracle that always answers with plain content. -/
def plainOracle : LLMOracle := fun _ _ => .ok { content := "4" }

/-- A provider oracle that always throws. -/
def failingOracle : LLMOracle := fun _ _ => .error "boom"

/-- A weather tool whose handler resolves quickly. -/
def weatherTool : Tool :=
  { name := "get_weather", description := "weather lookup",
    function := fun _ => { time := 5, outcome := .ok (.string "Sunny, 22C") },
    parameters := "city schema", timeout := 30 }

/-- An agent equipped with the weather tool. -/
def toolAgent : AgentState :=
  { memory := [], memCap := 1000, maxMemoryMessages := 50,
    systemPrompt := "sp", registry := ⟨[weatherTool]⟩ }

/-- A provider tool call for the weather tool. -/
def sampleLLMCall : LLMToolCall :=
  { id := "call_1", type := "function",
    function := { name := "get_weather", arguments := "city Tokyo" } }

/-- First model response: requests the weather tool. -/
def sampleR1 : LLMResponse := { content := "", toolCalls := some [sampleLLMCall] }

/-- Follow-up model response: carries content and requests a further tool
call (which must not be auto-executed). -/
def sampleR2 : LLMResponse :=
  { content := "Sunny in Tokyo",
    toolCalls := some [{ id := "call_2", type := "function",
                         function := { name := "lookup", arguments := "x" } }] }

/-- An oracle returning sampleR1 on the first (two-message) request and
sampleR2 on the follow-up request. -/
def toolRoundOracle : LLMOracle := fun msgs _ =>
  if msgs.length = 2 then .ok sampleR1 else .ok sampleR2

/-- JSON.parse stub for witnesses: every arguments string parses, the
structure carried opaquely. -/
def okParse : ArgsParse := fun a => .ok a

/-- JSON.parse stub for the malformed-arguments counterexamples: the
arguments string "not-json" raises a SyntaxError, anything else parses. -/
def badParse : ArgsParse := fun a =>
  if a = "not-json" then .error "Unexpected token" else .ok a

/-- A provider tool call whose arguments string is malformed JSON. -/
def badLLMCall : LLMToolCall :=
  { id := "call_9", type := "function",
    function := { name := "get_weather", arguments := "not-json" } }

/-- A model response requesting one tool call with malformed arguments. -/
def badR1 : LLMResponse := { content := "", toolCalls := some [badLLMCall] }

/-- An oracle that always returns the malformed-arguments response. -/
def badOracle : LLMOracle := fun _ _ => .ok badR1

/-- The converted form of sampleLLMCall under a successful parse. -/
def sampleConverted : List ToolCall :=
  [{ name := "get_weather", arguments := "city Tokyo", callId := "call_1" }]

/-- The converted form of sampleR2's follow-up tool call. -/
def sampleExtra : List ToolCall :=
  [{ name := "lookup", arguments := "x", callId := "call_2" }]

/-- A tool-call-only assistant turn with empty content. -/
def toolOnlyAssistantMsg : Message :=
  { role := "assistant", content := "",
    toolCalls := some [{ name := "get_weather", arguments := "a", callId := "c" }] }

/-- A network stub for witnesses. -/
def stubNet : Network := fun _ => .ok { content := "net" }

/-- A streaming network stub for witnesses. -/
def stubStreamNet : StreamNetwork := fun _ => .ok []

/-- A parse stub mapping the payload "P" to a content delta "X" and
rejecting everything else. -/
def cexParse : SseParse :=
  fun s => if s = "P" then some { content := some "X" } else none

/-- A chunk carrying only the finished flag. -/
def finishedOnlyChunk : StreamChunk := { finished := some true }

/-- Claim C4: if a registered tool's handler settles strictly after the
configured timeout (tool.timeout seconds, raced at tool.timeout * 1000 ms),
executeTool returns error = "Tool execution timeout" and no result field,
regardless of the value or error the handler eventually settles with. -/
theorem executeTool_timeout_wins (reg : ToolRegistry) (tc : ToolCall) (tool : Tool)
    (hfind : getTool reg tc.name = some tool)
    (hlate : tool.timeout * 1000 < (tool.function tc.arguments).time) :
    (executeTool reg tc).error = some "Tool execution timeout" ∧
    (executeTool reg tc).result = none := by
  unfold executeTool
  rw [hfind]
  simp only
  rw [if_neg (by omega)]
  exact ⟨rfl, rfl⟩

/-- Witness for C4 at a concrete late handler. -/
theorem executeTool_timeout_wins_witness :
    getTool slowRegistry slowCall.name = some slowTool ∧
    slowTool.timeout * 1000 < (slowTool.function slowCall.arguments).time ∧
    ((executeTool slowRegistry slowCall).error = some "Tool execution timeout" ∧
     (executeTool slowRegistry slowCall).result = none) :=
  ⟨rfl, by decide,
   executeTool_timeout_wins slowRegistry slowCall slowTool rfl (by decide)⟩

/-- Claim C5: every ToolResult produced by executeTool has exactly one of
result / error set; lookup failure, handler errors and timeouts all land in
the error field.  executeTool is a total function into ToolResult (the TS
method catches every failure), so it never throws. -/
theorem executeTool_result_xor_error (reg : ToolRegistry) (tc : ToolCall) :
    ((executeTool reg tc).result.isSome ∧ (executeTool reg tc).error = none) ∨
    ((executeTool reg tc).result = none ∧ (executeTool reg tc).error.isSome) := by
  unfold executeTool
  cases getTool reg tc.name with
  | none => right; simp
  | some tool =>
      simp only
      by_cases h : (tool.function tc.arguments).time ≤ tool.timeout * 1000
      · rw [if_pos h]
        cases (tool.function tc.arguments).outcome with
        | ok v => left; simp
        | error msg => right; simp
      · rw [if_neg h]
        right; simp

lemma addMessageMem_lastN (n : Nat) (hn : 1 ≤ n) (pre : List Message) (m : Message) :
    addMessageMem n (lastN n pre) m = lastN n (pre ++ [m]) := by
  unfold addMessageMem lastN jsSliceLast
  simp only [List.length_append, List.length_drop, List.length_singleton]
  by_cases hL : pre.length < n
  · rw [if_neg (by omega)]
    have h0 : pre.length - n = 0 := by omega
    have h1 : pre.length + 1 - n = 0 := by omega
    rw [h0, h1, List.drop_zero, List.drop_zero]
  · rw [if_pos (by omega), if_neg (by omega)]
    rw [List.drop_append_eq_append_drop, List.drop_append_eq_append_drop]
    rw [List.drop_drop]
    simp only [List.length_drop]
    congr 1
    · congr 1
      omega
    · congr 1
      omega

/-- Amended claim C10: for every capacity maxMessages ≥ 1, replaying any
sequence of addMessage calls against an initially empty DictMemory /
SimpleDictMemory session leaves exactly the most recently added messages, in
insertion order, and the stored list never exceeds maxMessages entries. -/
theorem dictMemory_bounded_suffix (n : Nat) (hn : 1 ≤ n) (msgs : List Message) :
    msgs.foldl (addMessageMem n) [] = lastN n msgs ∧
    (msgs.foldl (addMessageMem n) []).length ≤ n := by
  have key : msgs.foldl (addMessageMem n) [] = lastN n msgs := by
    induction msgs using List.reverseRecOn with
    | nil => simp [lastN]
    | append_singleton xs m ih =>
        rw [List.foldl_append, List.foldl_cons, List.foldl_nil, ih,
          addMessageMem_lastN n hn]
  refine ⟨key, ?_⟩
  rw [key]
  unfold lastN
  simp only [List.length_drop]
  omega

/-- Witness for amended C10 at capacity 2 with three insertions. -/
theorem dictMemory_bounded_suffix_witness :
    1 ≤ 2 ∧
    ([msgA, msgB, msgC].foldl (addMessageMem 2) [] = lastN 2 [msgA, msgB, msgC] ∧
     ([msgA, msgB, msgC].foldl (addMessageMem 2) []).length ≤ 2) :=
  ⟨by decide, dictMemory_bounded_suffix 2 (by decide) [msgA, msgB, msgC]⟩

/-- Counterexample to C10 as stated: a DictMemory / SimpleDictMemory
constructed with capacity 0 stores one message after one addMessage call —
the stored list exceeds maxMessages = 0, because slice(-0) is slice(0) and
never trims. -/
theorem dictMemory_capacity_zero_counterexample :
    ([msgA].foldl (addMessageMem 0) []).length = 1 ∧
    ¬ ([msgA].foldl (addMessageMem 0) []).length ≤ 0 := by
  constructor
  · rfl
  · decide

lemma executeToolCalls_fst (reg : ToolRegistry) (tcs : List ToolCall) :
    (executeToolCalls reg tcs).1 = tcs.map (executeTool reg) := by
  induction tcs with
  | nil => rfl
  | cons tc rest ih => simp [executeToolCalls, ih]

lemma executeToolCalls_snd (reg : ToolRegistry) (tcs : List ToolCall) :
    (executeToolCalls reg tcs).2 = tcs.map Event.toolExec := by
  induction tcs with
  | nil => rfl
  | cons tc rest ih => simp [executeToolCalls, ih]

lemma toolResultMessage_role (r : ToolResult) : (toolResultMessage r).role = "tool" :=
  rfl

lemma filter_isToolExec_toolExecs (tcs : List ToolCall) :
    (tcs.map Event.toolExec).filter Event.isToolExec = tcs.map Event.toolExec := by
  induction tcs with
  | nil => rfl
  | cons a l ih => simp [Event.isToolExec, ih]

lemma filter_isToolExec_memAppends (ms : List Message) :
    (ms.map Event.memAppend).filter Event.isToolExec = [] := by
  induction ms with
  | nil => rfl
  | cons a l ih => simp [Event.isToolExec, ih]

lemma filter_isRequest_toolExecs (tcs : List ToolCall) :
    (tcs.map Event.toolExec).filter Event.isRequest = [] := by
  induction tcs with
  | nil => rfl
  | cons a l ih => simp [Event.isRequest, ih]

lemma filter_isRequest_memAppends (ms : List Message) :
    (ms.map Event.memAppend).filter Event.isRequest = [] := by
  induction ms with
  | nil => rfl
  | cons a l ih => simp [Event.isRequest, ih]

lemma convertToolCalls_ok_length (parse : ArgsParse) :
    ∀ (l : List LLMToolCall) (c : List ToolCall),
      convertToolCalls parse l = .ok c → c.length = l.length := by
  intro l
  induction l with
  | nil =>
      intro c hc
      simp only [convertToolCalls] at hc
      cases hc
      rfl
  | cons tc rest ih =>
      intro c hc
      simp only [convertToolCalls] at hc
      cases hp : parse tc.function.arguments with
      | error e => rw [hp] at hc; cases hc
      | ok args =>
          rw [hp] at hc
          cases hr : convertToolCalls parse rest with
          | error e => rw [hr] at hc; cases hc
          | ok cr =>
              rw [hr] at hc
              cases hc
              simp [ih cr hr]

lemma chatOnResponse_trace_lead (s : AgentState) (llm : LLMOracle) (u : String)
    (parse : ArgsParse) (r : Except String LLMResponse) :
    ∃ rest, (chatOnResponse s llm u parse r).trace = chatLeadEvents s u ++ rest := by
  cases r with
  | error e => exact ⟨[], by simp [chatOnResponse]⟩
  | ok resp =>
      simp only [chatOnResponse]
      cases hotc : resp.toolCalls with
      | none => exact ⟨_, rfl⟩
      | some l =>
          cases l with
          | nil => exact ⟨_, rfl⟩
          | cons tc0 tcs =>
              simp only [chatOnToolCalls, chatToolPhase]
              cases hconv : convertToolCalls parse (tc0 :: tcs) with
              | error e => exact ⟨[], by simp [chatToolConverted]⟩
              | ok converted =>
                  simp only [chatToolConverted, chatToolRound]
                  cases hl2 : llm (followupMessages s u resp.content converted)
                      none with
                  | error e => exact ⟨_, rfl⟩
                  | ok r2 =>
                      simp only [chatFollowup]
                      cases hoc : optConvert parse r2.toolCalls with
                      | error e => exact ⟨_, rfl⟩
                      | ok extra => exact ⟨_, rfl⟩

lemma chat_trace_lead (s : AgentState) (llm : LLMOracle) (parse : ArgsParse)
    (u : String) :
    ∃ rest, (chat s llm parse u).trace = chatLeadEvents s u ++ rest :=
  chatOnResponse_trace_lead s llm u parse (llm (chatOutbound s u) (chatToolsArg s))

/-- Claim C1: for every chat invocation whose assembled history is non-empty
and holds no system-role message, the list passed to the provider adapter
contains exactly one system-role message, and it is positioned first. -/
theorem chat_injects_single_system (s : AgentState) (llm : LLMOracle)
    (parse : ArgsParse) (u : String)
    (_hne : getMessages (afterUser s u) ≠ [])
    (hnosys : ∀ m ∈ getMessages (afterUser s u), m.role ≠ "system") :
    OutboundSystemOnce s llm parse u := by
  have hany : (getMessages (afterUser s u)).any (fun m => m.role == "system") = false := by
    simp only [List.any_eq_false]
    intro m hm
    simpa using hnosys m hm
  have hout : chatOutbound s u =
      { role := "system", content := s.systemPrompt } :: getMessages (afterUser s u) := by
    unfold chatOutbound assembleOutbound
    rw [hany]
    simp
  have hfilter : (getMessages (afterUser s u)).filter (fun m => m.role == "system") = [] := by
    rw [List.filter_eq_nil_iff]
    intro m hm
    simpa using hnosys m hm
  obtain ⟨rest, hrest⟩ := chat_trace_lead s llm parse u
  refine ⟨rest, ?_, ?_, ?_⟩
  · simpa [chatLeadEvents] using hrest
  · rw [hout]
    simp [List.filter_cons, hfilter]
  · rw [hout]
    rfl

/-- Witness for C1: a fresh agent with empty memory, asked "2+2?". -/
theorem chat_injects_single_system_witness :
    getMessages (afterUser sampleAgent "2+2?") ≠ [] ∧
    (∀ m ∈ getMessages (afterUser sampleAgent "2+2?"), m.role ≠ "system") ∧
    OutboundSystemOnce sampleAgent plainOracle okParse "2+2?" :=
  ⟨by decide, by decide,
   chat_injects_single_system sampleAgent plainOracle okParse "2+2?" (by decide)
     (by decide)⟩

lemma toolMessages_length (reg : ToolRegistry) (converted : List ToolCall) :
    (toolMessages reg converted).length = converted.length := by
  simp [toolMessages, executeToolCalls_fst]

lemma toolMessages_role (reg : ToolRegistry) (converted : List ToolCall) :
    ∀ m ∈ toolMessages reg converted, m.role = "tool" := by
  intro m hm
  simp only [toolMessages, List.mem_map] at hm
  obtain ⟨r, _, rfl⟩ := hm
  exact toolResultMessage_role r

lemma chatLeadEvents_filter_isToolExec (s : AgentState) (u : String) :
    (chatLeadEvents s u).filter Event.isToolExec = [] := rfl

lemma chatLeadEvents_filter_isRequest (s : AgentState) (u : String) :
    (chatLeadEvents s u).filter Event.isRequest =
      [Event.llmRequest (chatOutbound s u) (chatToolsArg s)] := rfl

/-- Amended claim C2: when the first model response carries N ≥ 1 tool
calls and every arguments string parses (JSON.parse succeeds, yielding the
converted list), Agent.chat invokes ToolRegistry.executeTool exactly N
times, sequentially and in array order, and appends exactly N tool-role
messages — one per call, placed after the assistant message carrying the
calls — before the follow-up request is issued.  On a malformed arguments
string the SyntaxError is thrown instead and no tool executes (see the
counterexample). -/
theorem chat_tool_round_in_order (s : AgentState) (llm : LLMOracle)
    (parse : ArgsParse) (u : String) (r1 : LLMResponse)
    (ltc : List LLMToolCall) (converted : List ToolCall)
    (h1 : llm (chatOutbound s u) (chatToolsArg s) = .ok r1)
    (h2 : r1.toolCalls = some ltc)
    (h3 : ltc ≠ [])
    (hconv : convertToolCalls parse ltc = .ok converted) :
    converted.length = ltc.length ∧
    ToolRoundTraceSpec s llm parse u r1 converted := by
  refine ⟨convertToolCalls_ok_length parse ltc converted hconv, ?_⟩
  obtain ⟨tc0, tcs, rfl⟩ := List.exists_cons_of_ne_nil h3
  have htrace :
      ∃ rest,
        (chat s llm parse u).trace =
          chatLeadEvents s u ++
          converted.map Event.toolExec ++
          (Event.memAppend (assistantToolMessage r1.content converted) ::
            (toolMessages s.registry converted).map Event.memAppend) ++
          (Event.llmRequest (followupMessages s u r1.content converted) none ::
            rest) ∧
        (rest = [] ∨ ∃ m, rest = [Event.memAppend m]) := by
    unfold chat
    rw [h1]
    simp only [chatOnResponse]
    rw [h2]
    simp only [chatOnToolCalls, chatToolPhase]
    rw [hconv]
    simp only [chatToolConverted, chatToolRound, executeToolCalls_snd]
    cases llm (followupMessages s u r1.content converted) none with
    | error e =>
        refine ⟨[], ?_, Or.inl rfl⟩
        simp [chatFollowup, List.append_assoc]
    | ok r2 =>
        simp only [chatFollowup]
        cases hoc : optConvert parse r2.toolCalls with
        | error e =>
            refine ⟨[], ?_, Or.inl rfl⟩
            simp [chatFollowupOk, List.append_assoc]
        | ok extra =>
            refine ⟨[Event.memAppend { role := "assistant", content := r2.content }], ?_,
              Or.inr ⟨{ role := "assistant", content := r2.content }, rfl⟩⟩
            simp [chatFollowupOk, chatFinish, List.append_assoc]
  obtain ⟨rest, htr, hrest⟩ := htrace
  refine ⟨⟨rest, htr⟩, ?_, toolMessages_length s.registry converted,
    toolMessages_role s.registry converted⟩
  rw [htr]
  have hrestfilter : rest.filter Event.isToolExec = [] := by
    rcases hrest with rfl | ⟨m, rfl⟩
    · rfl
    · rfl
  simp [List.filter_append, chatLeadEvents_filter_isToolExec,
    filter_isToolExec_toolExecs, filter_isToolExec_memAppends,
    Event.isToolExec, hrestfilter, List.filter_cons]

/-- Witness for amended C2: a weather-tool agent whose first response
requests one tool call with well-formed arguments. -/
theorem chat_tool_round_in_order_witness :
    toolRoundOracle (chatOutbound toolAgent "weather?") (chatToolsArg toolAgent) =
      .ok sampleR1 ∧
    sampleR1.toolCalls = some [sampleLLMCall] ∧
    [sampleLLMCall] ≠ [] ∧
    convertToolCalls okParse [sampleLLMCall] = .ok sampleConverted ∧
    (sampleConverted.length = [sampleLLMCall].length ∧
     ToolRoundTraceSpec toolAgent toolRoundOracle okParse "weather?" sampleR1
       sampleConverted) :=
  ⟨rfl, rfl, by decide, rfl,
   chat_tool_round_in_order toolAgent toolRoundOracle okParse "weather?" sampleR1
     [sampleLLMCall] sampleConverted rfl rfl (by decide) rfl⟩

/-- Counterexample to C2 as stated: a first response carrying one tool call
whose arguments string is malformed JSON makes Agent.chat throw the
JSON.parse SyntaxError before anything runs — zero executeTool invocations
appear in the trace instead of the claimed N = 1, and no tool-role message
is appended. -/
theorem malformed_args_run_no_tools :
    (chat toolAgent badOracle badParse "weather?").result =
      .error "Unexpected token" ∧
    (chat toolAgent badOracle badParse "weather?").trace.filter
      Event.isToolExec = [] :=
  ⟨rfl, rfl⟩

/-- Amended claim C3: when the first response requests tool calls and every
argument string parses — the first response's so the round proceeds, and
the follow-up response's so its calls can be recorded — exactly one
follow-up request is issued; the follow-up's tool calls are included in the
returned AgentResponse.toolCalls aggregate but executeTool is never invoked
for them.  On malformed arguments the SyntaxError is thrown instead (see
the counterexample). -/
theorem chat_single_followup (s : AgentState) (llm : LLMOracle)
    (parse : ArgsParse) (u : String) (r1 r2 : LLMResponse)
    (ltc : List LLMToolCall) (converted extra : List ToolCall)
    (h1 : llm (chatOutbound s u) (chatToolsArg s) = .ok r1)
    (h2 : r1.toolCalls = some ltc)
    (h3 : ltc ≠ [])
    (hconv : convertToolCalls parse ltc = .ok converted)
    (h4 : llm (followupMessages s u r1.content converted) none = .ok r2)
    (hconv2 : optConvert parse r2.toolCalls = .ok extra) :
    SingleFollowupSpec s llm parse u r2 converted extra := by
  obtain ⟨tc0, tcs, rfl⟩ := List.exists_cons_of_ne_nil h3
  unfold SingleFollowupSpec chat
  rw [h1]
  simp only [chatOnResponse]
  rw [h2]
  simp only [chatOnToolCalls, chatToolPhase]
  rw [hconv]
  simp only [chatToolConverted, chatToolRound, executeToolCalls_snd]
  rw [h4]
  simp only [chatFollowup]
  rw [hconv2]
  simp only [chatFollowupOk, chatFinish]
  refine ⟨⟨_, rfl, rfl, rfl⟩, ?_, ?_⟩
  · simp [List.filter_append, chatLeadEvents_filter_isRequest,
      filter_isRequest_toolExecs, filter_isRequest_memAppends,
      Event.isRequest, List.filter_cons]
  · simp [List.filter_append, chatLeadEvents_filter_isToolExec,
      filter_isToolExec_toolExecs, filter_isToolExec_memAppends,
      Event.isToolExec, List.filter_cons]

/-- Witness for amended C3: the follow-up response itself requests a tool
call, which lands in the aggregate without being executed. -/
theorem chat_single_followup_witness :
    toolRoundOracle (chatOutbound toolAgent "weather?") (chatToolsArg toolAgent) =
      .ok sampleR1 ∧
    sampleR1.toolCalls = some [sampleLLMCall] ∧
    [sampleLLMCall] ≠ [] ∧
    convertToolCalls okParse [sampleLLMCall] = .ok sampleConverted ∧
    toolRoundOracle
        (followupMessages toolAgent "weather?" sampleR1.content sampleConverted)
        none = .ok sampleR2 ∧
    optConvert okParse sampleR2.toolCalls = .ok sampleExtra ∧
    SingleFollowupSpec toolAgent toolRoundOracle okParse "weather?" sampleR2
      sampleConverted sampleExtra :=
  ⟨rfl, rfl, by decide, rfl, rfl, rfl,
   chat_single_followup toolAgent toolRoundOracle okParse "weather?" sampleR1
     sampleR2 [sampleLLMCall] sampleConverted sampleExtra rfl rfl (by decide)
     rfl rfl rfl⟩

/-- Counterexample to C3 as stated: with a malformed arguments string in the
first response's tool calls, no follow-up request is ever issued — one
provider request in total — and no AgentResponse aggregate is returned
(the exchange throws instead). -/
theorem malformed_args_no_followup :
    ((chat toolAgent badOracle badParse "weather?").trace.filter
      Event.isRequest).length = 1 ∧
    ∀ resp, (chat toolAgent badOracle badParse "weather?").result ≠ .ok resp := by
  refine ⟨rfl, ?_⟩
  intro resp h
  have hres : (chat toolAgent badOracle badParse "weather?").result =
      .error "Unexpected token" := rfl
  rw [hres] at h
  exact Except.noConfusion h

lemma addMessageMem_no_evict (cap : Nat) (mem : List Message) (m : Message)
    (h : mem.length + 1 ≤ cap) : addMessageMem cap mem m = mem ++ [m] := by
  unfold addMessageMem
  rw [if_neg]
  simp only [List.length_append, List.length_singleton]
  omega

lemma foldl_addMessageMem_no_evict (cap : Nat) :
    ∀ (ms init : List Message), init.length + ms.length ≤ cap →
      ms.foldl (addMessageMem cap) init = init ++ ms := by
  intro ms
  induction ms with
  | nil => intro init _; simp
  | cons m rest ih =>
      intro init h
      rw [List.foldl_cons, addMessageMem_no_evict cap init m (by simp at h; omega)]
      rw [ih (init ++ [m]) (by simp at h ⊢; omega)]
      simp

lemma agentAppend_memCap (s : AgentState) (m : Message) :
    (agentAppend s m).memCap = s.memCap := rfl

lemma agentAppendAll_memory :
    ∀ (ms : List Message) (st : AgentState),
      (agentAppendAll st ms).memory = ms.foldl (addMessageMem st.memCap) st.memory ∧
      (agentAppendAll st ms).memCap = st.memCap := by
  intro ms
  induction ms with
  | nil => intro st; exact ⟨rfl, rfl⟩
  | cons m rest ih =>
      intro st
      have h := ih (agentAppend st m)
      refine ⟨?_, ?_⟩
      · rw [List.foldl_cons]
        exact h.1
      · exact h.2

/-- Claim C9: if a provider adapter call inside Agent.chat throws — either
the first request, or the follow-up request issued after a successful tool
round — the error propagates unmodified to the caller as the chat result,
and memory retains every message appended before the failure, led by the
user's message of the failed exchange; the final memory is exactly the
initial memory extended by those appends (plain concatenation whenever the
capacity bound is respected — nothing is ever rolled back on error). -/
theorem chat_error_keeps_memory (s : AgentState) (llm : LLMOracle)
    (parse : ArgsParse) (u : String) (e : String)
    (h : llm (chatOutbound s u) (chatToolsArg s) = .error e ∨
         ∃ r1 ltc converted,
           llm (chatOutbound s u) (chatToolsArg s) = .ok r1 ∧
           r1.toolCalls = some ltc ∧ ltc ≠ [] ∧
           convertToolCalls parse ltc = .ok converted ∧
           llm (followupMessages s u r1.content converted) none = .error e) :
    ErrorKeepsMemorySpec s llm parse u e := by
  unfold ErrorKeepsMemorySpec
  unfold chat
  rcases h with h1 | ⟨r1, ltc, converted, h1, h2, h3, hconv, h4⟩
  · rw [h1]
    simp only [chatOnResponse]
    refine ⟨by trivial, [mkUserMessage u], rfl, rfl, ?_⟩
    intro hcap
    show (afterUser s u).memory = s.memory ++ [mkUserMessage u]
    exact addMessageMem_no_evict s.memCap s.memory (mkUserMessage u)
      (by simpa using hcap)
  · obtain ⟨tc0, tcs, rfl⟩ := List.exists_cons_of_ne_nil h3
    rw [h1]
    simp only [chatOnResponse]
    rw [h2]
    simp only [chatOnToolCalls, chatToolPhase]
    rw [hconv]
    simp only [chatToolConverted, chatToolRound]
    rw [h4]
    simp only [chatFollowup]
    refine ⟨by trivial, mkUserMessage u ::
        assistantToolMessage r1.content converted ::
        toolMessages s.registry converted,
      rfl, ?_, ?_⟩
    · show (afterToolRound s u r1.content converted).memory = _
      unfold afterToolRound
      have hmem := agentAppendAll_memory
        (toolMessages s.registry converted)
        (agentAppend (afterUser s u)
          (assistantToolMessage r1.content converted))
      rw [hmem.1]
      rfl
    · intro hcap
      show (afterToolRound s u r1.content converted).memory = _
      unfold afterToolRound
      have hmem := agentAppendAll_memory
        (toolMessages s.registry converted)
        (agentAppend (afterUser s u)
          (assistantToolMessage r1.content converted))
      rw [hmem.1]
      show (mkUserMessage u ::
          assistantToolMessage r1.content converted ::
          toolMessages s.registry converted).foldl
            (addMessageMem s.memCap) s.memory = _
      rw [foldl_addMessageMem_no_evict s.memCap _ s.memory
        (by simpa using hcap)]

/-- Witness for C9: an always-throwing provider against a fresh agent. -/
theorem chat_error_keeps_memory_witness :
    failingOracle (chatOutbound sampleAgent "hello") (chatToolsArg sampleAgent) =
      .error "boom" ∧
    ErrorKeepsMemorySpec sampleAgent failingOracle okParse "hello" "boom" :=
  ⟨rfl,
   chat_error_keeps_memory sampleAgent failingOracle okParse "hello" "boom"
     (Or.inl rfl)⟩

/-- Amended claim C6: for every call to the OpenAI adapter's chat or stream
method with an empty message list, or with some message whose role or
content is an empty string, a validation error is thrown before any network
request is made — with no exemption: empty content is rejected even for
tool-call-only assistant turns. -/
theorem validation_precedes_network (net : Network) (snet : StreamNetwork)
    (parse : SseParse) (messages : List Message)
    (tools : Option (List OpenAIToolDecl))
    (h : messages = [] ∨ ∃ m ∈ messages, m.role = "" ∨ m.content = "") :
    ∃ e, openaiChat net messages tools = (.error e, false) ∧
         openaiStream parse snet messages tools = (.error e, false) := by
  have hv : ∃ e, validateMessages messages = .error e := by
    rcases h with rfl | ⟨m, hm, hbad⟩
    · exact ⟨"Messages cannot be empty", rfl⟩
    · by_cases h0 : messages.length = 0
      · exact ⟨"Messages cannot be empty", by unfold validateMessages; rw [if_pos h0]⟩
      · have hany : messages.any (fun m => m.role == "" || m.content == "") = true := by
          rw [List.any_eq_true]
          refine ⟨m, hm, ?_⟩
          rcases hbad with hb | hb <;> simp [hb]
        refine ⟨"Each message must have role and content", ?_⟩
        unfold validateMessages
        rw [if_neg h0, if_pos hany]
  obtain ⟨e, hv⟩ := hv
  refine ⟨e, ?_, ?_⟩
  · unfold openaiChat
    rw [hv]
  · unfold openaiStream
    rw [hv]

/-- Witness for amended C6: the empty message list is rejected without a
network call on both entry points. -/
theorem validation_precedes_network_witness :
    (([] : List Message) = [] ∨ ∃ m ∈ ([] : List Message), m.role = "" ∨ m.content = "") ∧
    (∃ e, openaiChat stubNet [] none = (.error e, false) ∧
          openaiStream cexParse stubStreamNet [] none = (.error e, false)) :=
  ⟨Or.inl rfl,
   validation_precedes_network stubNet stubStreamNet cexParse [] none (Or.inl rfl)⟩

/-- Counterexample to C6 as stated: the claimed exemption — content may be
an empty string for tool-call-only assistant turns — does not hold in the
code.  validateMessages rejects an assistant message carrying tool calls
and empty content, so such a turn throws instead of being sent. -/
theorem validation_rejects_toolcall_only_turn :
    validateMessages [toolOnlyAssistantMsg] =
      .error "Each message must have role and content" ∧
    openaiChat stubNet [toolOnlyAssistantMsg] none =
      (.error "Each message must have role and content", false) :=
  ⟨rfl, rfl⟩

/-- Amended claim C7: a complete line equal to the done-sentinel literal
"data: [DONE]" never itself emits a chunk, but it does not stop the read
loop: a batch of lines emits exactly what it would emit with the sentinel
line deleted, so lines after the sentinel still produce their chunks. -/
theorem sentinel_line_skipped_not_terminal (parse : SseParse)
    (ls1 ls2 : List String) :
    processLine parse "data: [DONE]" = [] ∧
    ((ls1 ++ "data: [DONE]" :: ls2).map (processLine parse)).flatten =
      ((ls1 ++ ls2).map (processLine parse)).flatten := by
  refine ⟨rfl, ?_⟩
  induction ls1 with
  | nil =>
      rw [List.nil_append, List.nil_append, List.map_cons, List.flatten_cons]
      rw [show processLine parse "data: [DONE]" = [] from rfl]
      rw [List.nil_append]
  | cons a t ih =>
      rw [List.cons_append, List.cons_append, List.map_cons, List.map_cons,
        List.flatten_cons, List.flatten_cons, ih]

/-- Counterexample to C7 as stated: a data line that occurs after the
"data: [DONE]" sentinel in the byte stream still emits a StreamChunk — the
source's sentinel check is a continue, not a stop. -/
theorem chunk_emitted_after_sentinel :
    streamLoop cexParse ["data: [DONE]\ndata: P\n"] "" =
      [{ content := some "X" }] := rfl

lemma chunkAccum_eq (acc : String) (c : StreamChunk) :
    (match c.content with
     | some t => if t = "" then acc else acc ++ t
     | none => acc) = acc ++ chunkText c := by
  cases hc : c.content with
  | none => simp [chunkText, hc, String.append_empty]
  | some t =>
      by_cases ht : t = ""
      · subst ht
        simp [chunkText, hc, String.append_empty]
      · simp [chunkText, hc, ht]

lemma streamStep_eq :
    ∀ (chunks : List StreamChunk) (acc : String),
      streamStep chunks acc =
        (acc ++ deltasConcat (forwardedSpec chunks), forwardedSpec chunks) := by
  intro chunks
  induction chunks with
  | nil =>
      intro acc
      simp [streamStep, forwardedSpec, deltasConcat, String.append_empty]
  | cons c rest ih =>
      intro acc
      by_cases hf : c.finished = some true
      · simp only [streamStep, forwardedSpec, if_pos hf, chunkAccum_eq,
          deltasConcat]
        rw [String.append_empty]
      · simp only [streamStep, forwardedSpec, if_neg hf, chunkAccum_eq, ih,
          deltasConcat]
        rw [String.append_assoc]

lemma streamStep_empty_acc (chunks : List StreamChunk) :
    streamStep chunks "" =
      (deltasConcat (forwardedSpec chunks), forwardedSpec chunks) := by
  rw [streamStep_eq chunks ""]
  rw [String.empty_append]

/-- Amended claim C8: Agent.stream forwards the provider's chunks in arrival
order up to and including the first finished chunk; afterwards a single
assistant message carrying the concatenation of the received content deltas
is appended to memory — provided that concatenation is non-empty.  When it
is empty (for example a stream with no content deltas), no assistant
message is appended at all. -/
theorem agentStream_commits_concat (s : AgentState) (u : String)
    (chunks : List StreamChunk) : StreamCommitSpec s u chunks := by
  unfold StreamCommitSpec agentStream
  rw [streamStep_empty_acc chunks]
  by_cases hD : deltasConcat (forwardedSpec chunks) = ""
  · rw [if_pos hD, if_pos hD]
    exact ⟨rfl, rfl⟩
  · rw [if_neg hD, if_neg hD]
    exact ⟨rfl, rfl⟩

/-- Counterexample to C8 as stated: a stream consisting of a single finished
chunk carries no content deltas, and Agent.stream appends no assistant
message at all (the source's if (fullContent) guard) — whereas the claim
requires a single assistant message whose content is the (empty)
concatenation of the received deltas. -/
theorem agentStream_empty_stream_no_commit :
    (agentStream sampleAgent "hi" [finishedOnlyChunk]).trace =
      [Event.memAppend (mkUserMessage "hi")] ∧
    (agentStream sampleAgent "hi" [finishedOnlyChunk]).trace.filter
        Event.isAssistantAppend = [] :=
  ⟨rfl, rfl⟩
